import Mathlib

/-!
Verification development for the tikzplot document-tree model and its
serialization / option-merging engine (`tikzplot.py`).

The host language is dynamically typed, so the embedding uses one value type
`PyVal` covering the builtin values that flow through the core (`None`,
strings, numbers, tuples, lists, dicts) together with the library's own
typed nodes (`Value`, `EncapsulatedValue`, `Coordinate`, `ValueList`,
`OptionList`, and the two private legend-image elements used by the
composite override protocol).  Exceptions are modelled with `Except`, and
partial-function behavior (e.g. `value[0]` on an empty tuple) raises the
corresponding error value.
-/

/-- Errors raised by the embedded code. -/
inductive PyErr where
  | indexError
  | keyError
  | typeError
  | valueError
  | ioError
deriving DecidableEq, Repr

/-- Host values.  Constructors map one-to-one onto the builtin types and the
library classes that can occur as option keys, option values or plot data:

* `none`, `str`, `num`, `pfloat` : `None`, `str`, `int`, `float` (a float is
  kept as its printed literal; the core never computes with it);
* `tup`, `list`, `dict` : builtin containers;
* `value v` : `Value(v)`;
* `encap v` : `EncapsulatedValue` whose stored `value` attribute is `v`;
* `coord p e m` : `Coordinate(point=p, error=e, meta=m)` (absent = `none`);
* `vlist es` / `olist es` : `ValueList` / `OptionList` as ordered key/value
  entry lists (a flag is a key bound to `none`);
* `elemLI es` : `ErrorPlot._LegendImage`, a `TikzElement` owning options `es`;
* `vioLegend es o` : `Violin._LegendImage`; `es` is the (already copied)
  line-option container its `write` renders, `o` the orientation. -/
inductive PyVal where
  | none
  | str (s : String)
  | num (n : Int)
  | pfloat (lit : String)
  | tup (xs : List PyVal)
  | list (xs : List PyVal)
  | dict (es : List (PyVal × PyVal))
  | value (v : PyVal)
  | encap (v : PyVal)
  | coord (p e m : PyVal)
  | vlist (es : List (PyVal × PyVal))
  | olist (es : List (PyVal × PyVal))
  | elemLI (es : List (PyVal × PyVal))
  | vioLegend (es : List (PyVal × PyVal)) (orientation : String)
deriving Repr

/-- Ordered key/value entries of a `BaseList` (an `OrderedDict`). -/
abbrev Entries := List (PyVal × PyVal)

mutual

/-- Structural equality on host values (the host language's `==` on these). -/
def pvBEq : PyVal → PyVal → Bool
  | .none, b => match b with | .none => true | _ => false
  | .str a, b => match b with | .str b' => a == b' | _ => false
  | .num a, b => match b with | .num b' => a == b' | _ => false
  | .pfloat a, b => match b with | .pfloat b' => a == b' | _ => false
  | .tup a, b => match b with | .tup b' => pvBEqL a b' | _ => false
  | .list a, b => match b with | .list b' => pvBEqL a b' | _ => false
  | .dict a, b => match b with | .dict b' => pvBEqE a b' | _ => false
  | .value a, b => match b with | .value b' => pvBEq a b' | _ => false
  | .encap a, b => match b with | .encap b' => pvBEq a b' | _ => false
  | .coord p e m, b =>
    match b with
    | .coord p' e' m' => pvBEq p p' && pvBEq e e' && pvBEq m m'
    | _ => false
  | .vlist a, b => match b with | .vlist b' => pvBEqE a b' | _ => false
  | .olist a, b => match b with | .olist b' => pvBEqE a b' | _ => false
  | .elemLI a, b => match b with | .elemLI b' => pvBEqE a b' | _ => false
  | .vioLegend a o, b =>
    match b with
    | .vioLegend b' o' => pvBEqE a b' && o == o'
    | _ => false

def pvBEqL : List PyVal → List PyVal → Bool
  | [], [] => true
  | x :: xs, y :: ys => pvBEq x y && pvBEqL xs ys
  | _, _ => false

def pvBEqE : Entries → Entries → Bool
  | [], [] => true
  | (k, v) :: xs, (k', v') :: ys => pvBEq k k' && pvBEq v v' && pvBEqE xs ys
  | _, _ => false

end

theorem pvBEq_iff_aux : ∀ n : Nat,
    (∀ a b : PyVal, sizeOf a ≤ n → (pvBEq a b = true ↔ a = b)) ∧
    (∀ xs ys : List PyVal, sizeOf xs ≤ n → (pvBEqL xs ys = true ↔ xs = ys)) ∧
    (∀ es fs : Entries, sizeOf es ≤ n → (pvBEqE es fs = true ↔ es = fs)) := by
  intro n
  induction n with
  | zero =>
    refine ⟨?_, ?_, ?_⟩
    · intro a b h; exfalso; cases a <;> simp at h
    · intro xs ys h; exfalso; cases xs <;> simp at h
    · intro es fs h; exfalso; cases es <;> simp at h
  | succ m ih =>
    obtain ⟨ihV, ihL, ihE⟩ := ih
    refine ⟨?_, ?_, ?_⟩
    · intro a b h
      cases a <;> cases b
      case str.str x y => simp [pvBEq]
      case num.num x y => simp [pvBEq]
      case pfloat.pfloat x y => simp [pvBEq]
      case tup.tup xs ys =>
        simp only [pvBEq, PyVal.tup.injEq]
        exact ihL xs ys (by simp at h; omega)
      case list.list xs ys =>
        simp only [pvBEq, PyVal.list.injEq]
        exact ihL xs ys (by simp at h; omega)
      case dict.dict es fs =>
        simp only [pvBEq, PyVal.dict.injEq]
        exact ihE es fs (by simp at h; omega)
      case value.value x y =>
        simp only [pvBEq, PyVal.value.injEq]
        exact ihV x y (by simp at h; omega)
      case encap.encap x y =>
        simp only [pvBEq, PyVal.encap.injEq]
        exact ihV x y (by simp at h; omega)
      case coord.coord p e mv p' e' m' =>
        simp only [pvBEq, Bool.and_eq_true, PyVal.coord.injEq]
        rw [ihV p p' (by simp at h; omega), ihV e e' (by simp at h; omega),
          ihV mv m' (by simp at h; omega)]
        tauto
      case vlist.vlist es fs =>
        simp only [pvBEq, PyVal.vlist.injEq]
        exact ihE es fs (by simp at h; omega)
      case olist.olist es fs =>
        simp only [pvBEq, PyVal.olist.injEq]
        exact ihE es fs (by simp at h; omega)
      case elemLI.elemLI es fs =>
        simp only [pvBEq, PyVal.elemLI.injEq]
        exact ihE es fs (by simp at h; omega)
      case vioLegend.vioLegend es o fs o' =>
        simp only [pvBEq, Bool.and_eq_true, beq_iff_eq, PyVal.vioLegend.injEq]
        rw [ihE es fs (by simp at h; omega)]
      all_goals simp [pvBEq]
    · intro xs ys h
      cases xs with
      | nil => cases ys <;> simp [pvBEqL]
      | cons x xs' =>
        cases ys with
        | nil => simp [pvBEqL]
        | cons y ys' =>
          simp only [pvBEqL, Bool.and_eq_true, List.cons.injEq]
          rw [ihV x y (by simp at h; omega), ihL xs' ys' (by simp at h; omega)]
    · intro es fs h
      cases es with
      | nil => cases fs <;> simp [pvBEqE]
      | cons e es' =>
        cases fs with
        | nil => obtain ⟨k, v⟩ := e; simp [pvBEqE]
        | cons f fs' =>
          obtain ⟨k, v⟩ := e; obtain ⟨k', v'⟩ := f
          simp only [pvBEqE, Bool.and_eq_true, List.cons.injEq, Prod.mk.injEq]
          rw [ihV k k' (by simp at h; omega), ihV v v' (by simp at h; omega),
            ihE es' fs' (by simp at h; omega)]

theorem pvBEq_iff (a b : PyVal) : pvBEq a b = true ↔ a = b :=
  (pvBEq_iff_aux (sizeOf a)).1 a b (Nat.le_refl _)

instance : DecidableEq PyVal := fun a b => decidable_of_iff _ (pvBEq_iff a b)

/-! ### `isinstance` tests

Each predicate lists exactly the `PyVal` constructors whose Python class is an
instance of the named (abstract base) class. -/

def isNumber : PyVal → Bool
  | .num _ | .pfloat _ => true
  | _ => false

def isTuple : PyVal → Bool
  | .tup _ => true
  | _ => false

def isCoordinate : PyVal → Bool
  | .coord .. => true
  | _ => false

/-- `Value`, `EncapsulatedValue`, `Coordinate` and `ValueList` derive from
`BaseValue`; `OptionList` does not. -/
def isBaseValue : PyVal → Bool
  | .value _ | .encap _ | .coord .. | .vlist _ => true
  | _ => false

/-- The two private legend-image classes derive from `BaseElement`
(via `TikzElement` for `ErrorPlot._LegendImage`). -/
def isBaseElement : PyVal → Bool
  | .elemLI _ | .vioLegend .. => true
  | _ => false

/-- `dict` and every `OrderedDict` subclass are `collections.abc.Mapping`s. -/
def isMapping : PyVal → Bool
  | .dict _ | .vlist _ | .olist _ => true
  | _ => false

/-- Strings, tuples, lists and all mappings are `collections.abc.Iterable`. -/
def isIterable : PyVal → Bool
  | .str _ | .tup _ | .list _ | .dict _ | .vlist _ | .olist _ => true
  | _ => false

/-! ### `OrderedDict` primitives

Keys are compared with the host `==` (here: decidable equality on `PyVal`).
`odSet` implements `OrderedDict.__setitem__`: overwriting an existing key
keeps its position, a new key is appended at the end. -/

def odHasKey (d : Entries) (k : PyVal) : Bool :=
  d.any (fun e => e.1 == k)

def odLookup (d : Entries) (k : PyVal) : Option PyVal :=
  (d.find? (fun e => e.1 == k)).map (·.2)

def odSet (d : Entries) (k v : PyVal) : Entries :=
  if odHasKey d k then d.map (fun e => if e.1 == k then (e.1, v) else e)
  else d ++ [(k, v)]

def odDel (d : Entries) (k : PyVal) : Entries :=
  d.filter (fun e => !(e.1 == k))

def odKeys (d : Entries) : List PyVal := d.map (·.1)

/-! ### Value coercion and option-container merge

`as_tikz_value` follows the source's `isinstance` chain branch by branch;
each constructor below is routed to the first branch its class matches:

1. `Coordinate` → `EncapsulatedValue(value)`;
2. tuples: `value[0]` raises `IndexError` on an empty tuple, a tuple with a
   numeric first element becomes `EncapsulatedValue(value)`;
3. `None`, `BaseValue` and `BaseElement` instances are returned unchanged;
4. any other non-`str` iterable (remaining tuples, lists, dicts,
   `OptionList`s) becomes `ValueList(value)`;
5. everything else becomes `Value(value)`.

`vlAdd` is `BaseList.add` for one positional argument; an argument matching
no dispatch branch is silently skipped (the loop has no `else` clause).
`ValueList(value)` runs `add(value)` on an empty container; in
`as_tikz_value` that single dispatch step is expanded in place (a tuple
argument of length two is one key/value insertion, any other tuple or a
list is added element-wise, a mapping is inserted pairwise), and
`__setitem__` (coerce the value, then store it) is likewise expanded where
it occurs inside the recursion, so that every recursive call consumes a
subterm; `setItemT` below packages the same `__setitem__` for the callers
outside the recursion. -/

/-- `EncapsulatedValue.__init__`: a `BaseValue` is stored as is, anything
else is wrapped in a `Value` first. -/
def mkEncap (v : PyVal) : PyVal :=
  if isBaseValue v then .encap v else .encap (.value v)

mutual

def as_tikz_value : PyVal → Except PyErr PyVal
  | .coord p e m => .ok (mkEncap (.coord p e m))
  | .tup xs => atvTuple xs
  | .none => .ok .none
  | .value v => .ok (.value v)
  | .encap v => .ok (.encap v)
  | .vlist es => .ok (.vlist es)
  | .elemLI es => .ok (.elemLI es)
  | .vioLegend es o => .ok (.vioLegend es o)
  | .list xs => Except.map .vlist (vlAddSeq [] xs)
  | .dict es => Except.map .vlist (setEntriesT [] es)
  | .olist es => Except.map .vlist (setEntriesT [] es)
  | .str s => .ok (.value (.str s))
  | .num n => .ok (.value (.num n))
  | .pfloat s => .ok (.value (.pfloat s))

/-- Coercion of a tuple: `value[0]` raises `IndexError` on an empty tuple;
a numeric first element gives `EncapsulatedValue(value)`; otherwise
`ValueList(value)` runs `add(value)` on the tuple itself — a two-element
tuple is one key/value insertion (`self[arg[0]] = arg[1]`), any other
tuple is added element-wise (the leading `add` steps are expanded here so
the recursion is structural). -/
def atvTuple : List PyVal → Except PyErr PyVal
  | [] => .error .indexError
  | [x] =>
    if isNumber x then .ok (mkEncap (.tup [x]))
    else
      match vlAdd [] x with
      | .ok d1 => .ok (.vlist d1)
      | .error e => .error e
  | [x, b] =>
    if isNumber x then .ok (mkEncap (.tup [x, b]))
    else Except.map (fun w => .vlist (odSet [] x w)) (as_tikz_value b)
  | x :: y :: z :: rest =>
    if isNumber x then .ok (mkEncap (.tup (x :: y :: z :: rest)))
    else
      match vlAdd [] x with
      | .ok d1 =>
        match vlAdd d1 y with
        | .ok d2 =>
          match vlAdd d2 z with
          | .ok d3 => Except.map .vlist (vlAddSeq d3 rest)
          | .error e => .error e
        | .error e => .error e
      | .error e => .error e

/-- One positional argument of `BaseList.add`. -/
def vlAdd : Entries → PyVal → Except PyErr Entries
  | d, .dict es => setEntriesT d es
  | d, .vlist es => setEntriesT d es
  | d, .olist es => setEntriesT d es
  | d, .tup [a, b] => Except.map (odSet d a) (as_tikz_value b)
  | d, .str s => .ok (odSet d (.str s) .none)
  | d, .num n => .ok (odSet d (.num n) .none)
  | d, .pfloat s => .ok (odSet d (.pfloat s) .none)
  | d, .tup xs => vlAddSeq d xs
  | d, .list xs => vlAddSeq d xs
  | d, _ => .ok d

/-- The iterable branch of `add` and the loop over positional arguments:
`add` each element in turn. -/
def vlAddSeq : Entries → List PyVal → Except PyErr Entries
  | d, [] => .ok d
  | d, x :: rest =>
    match vlAdd d x with
    | .ok d1 => vlAddSeq d1 rest
    | .error e => .error e

/-- The mapping branch of `add` (and the keyword-argument loop):
`self[key] = value` for each pair in order. -/
def setEntriesT : Entries → List (PyVal × PyVal) → Except PyErr Entries
  | d, [] => .ok d
  | d, (k, v) :: rest =>
    match as_tikz_value v with
    | .ok w => setEntriesT (odSet d k w) rest
    | .error e => .error e

end

/-- `BaseList.__setitem__`: coerce the value, then store it. -/
def setItemT (d : Entries) (k v : PyVal) : Except PyErr Entries :=
  Except.map (odSet d k) (as_tikz_value v)

/-- `BaseList.add(*args, **kwargs)`: positional arguments strictly
left-to-right, then keyword arguments. -/
def vlAddM (d : Entries) (args : List PyVal) (kwargs : Entries) :
    Except PyErr Entries := do
  setEntriesT (← vlAddSeq d args) kwargs

/-- `BaseList(*args, **kwargs)` (hence also `OptionList(...)` and
`ValueList(...)`): start empty and `add` everything. -/
def mkBaseList (args : List PyVal) (kwargs : Entries) : Except PyErr Entries :=
  vlAddM [] args kwargs

/-! ### Printing (`str` / `repr`)

`"{}".format(x)` is `str(x)`; classes without `__str__` fall back to
`__repr__`.  Strings inside containers print with `repr` (quoted); the two
classes with no `__repr__` of their own (`Coordinate`,
`Violin._LegendImage`) print an identity-based placeholder whose exact text
(a memory address) is outside the model; no serialization path of the
claims reaches it. -/

mutual

def pyRepr : PyVal → String
  | .none => "None"
  | .str s => "\x27" ++ s ++ "\x27"
  | .num n => toString n
  | .pfloat lit => lit
  | .tup [x] => "(" ++ pyRepr x ++ ",)"
  | .tup xs => "(" ++ pyReprJoin xs ++ ")"
  | .list xs => "[" ++ pyReprJoin xs ++ "]"
  | .dict es => "\x7b" ++ pyReprPairs es ++ "\x7d"
  | .value v => "Value(" ++ pyRepr v ++ ")"
  | .encap v => "EncapsulatedValue(" ++ pyRepr v ++ ")"
  | .coord _ _ _ => "<Coordinate object>"
  | .vlist es => "ValueList([" ++ pyReprItems es ++ "])"
  | .olist es => "OptionList([" ++ pyReprItems es ++ "])"
  | .elemLI es => "_LegendImage(OptionList([" ++ pyReprItems es ++ "]))"
  | .vioLegend _ _ => "<_LegendImage object>"

def pyReprJoin : List PyVal → String
  | [] => ""
  | [x] => pyRepr x
  | x :: xs => pyRepr x ++ ", " ++ pyReprJoin xs

def pyReprPairs : Entries → String
  | [] => ""
  | [(k, v)] => pyRepr k ++ ": " ++ pyRepr v
  | (k, v) :: es => pyRepr k ++ ": " ++ pyRepr v ++ ", " ++ pyReprPairs es

def pyReprItems : Entries → String
  | [] => ""
  | [(k, v)] => "(" ++ pyRepr k ++ ", " ++ pyRepr v ++ ")"
  | (k, v) :: es => "(" ++ pyRepr k ++ ", " ++ pyRepr v ++ "), " ++ pyReprItems es

end

/-- `str(x)`: a string is itself, everything else falls back to `repr`. -/
def pyStr : PyVal → String
  | .str s => s
  | v => pyRepr v

/-! ### The legend-image option mutations

`ErrorPlot._LegendImage.write` and `Violin._LegendImage.write` mutate (a
copy of) an option container before writing it; `liMutate` and `vioMutate`
capture these mutations (see the `writeValue` commentary below for where
they are applied in the model). -/

/-- The option mutation performed by `ErrorPlot._LegendImage.write` before it
writes: remove `forget plot` when present, then default `draw` to `'none'`
when absent (coercing the string literal `'none'` yields `Value('none')`). -/
def liMutate (es : Entries) : Entries :=
  let es1 := if odHasKey es (.str "forget plot") then odDel es (.str "forget plot") else es
  if odHasKey es1 (.str "draw") then es1
  else odSet es1 (.str "draw") (.value (.str "none"))

/-- The option mutation performed by `Violin._LegendImage.write` on its copy
of the line options before writing it: remove `forget plot` when present,
then `add('/pgfplots/.cd', {'mark repeat': 2, 'mark phase': 2})` — the
string argument inserts a flag and the dict argument inserts two integer
values, coerced to `Value(2)`. -/
def vioMutate (es : Entries) : Entries :=
  let es1 := if odHasKey es (.str "forget plot") then odDel es (.str "forget plot") else es
  let es2 := odSet es1 (.str "/pgfplots/.cd") .none
  let es3 := odSet es2 (.str "mark repeat") (.value (.num 2))
  odSet es3 (.str "mark phase") (.value (.num 2))

/-! ### Value serialization

Each `write` method of the value model, with the output collected as a
string (the sink accepts sequential text writes, so a sequence of
`file.write` calls is their concatenation):

* `Value.write` prints the stored value unless it is `None`;
* `EncapsulatedValue.write` wraps the stored value's output in braces;
* `Coordinate.write` prints `point`, then optionally ` +- error` and
  ` [meta]`, then a newline;
* `BaseList.write` joins `key` (bare flag) or `key=value` items with
  `", "` (in the source every item but the last is followed by `", "`;
  here, equivalently, every item but the first is preceded by `", "`, so
  the recursion is structural); it indexes `items[-1]`, but its two
  callers below only invoke it on non-empty containers, which the
  non-empty patterns encode;
* `ValueList.write`/`OptionList.write` write nothing at all for an empty
  container (`if self:`) and otherwise wrap the items in `{}` / `[]`;
* the two legend-image `write`s emit their fixed drawing commands around
  their option container.  In the source each such `write` first mutates
  (a copy of) that container (`liMutate` / `vioMutate` above); both
  legend elements are created during the enclosing composite `write` and
  written at most once within it, so the model applies that mutation when
  the legend value is constructed (in `epWrite` / `vioWrite` below) and
  the constructors `elemLI` / `vioLegend` carry the container the drawing
  commands are written around.

Raw (never-coerced) values have no `write` method; those cases are
unreachable from coerced containers and produce the empty string. -/

mutual

def writeValue : PyVal → String
  | .value v => if v = .none then "" else pyStr v
  | .encap v => if v = .none then "" else "\x7b" ++ writeValue v ++ "\x7d"
  | .coord p e m =>
    pyStr p ++ (if e = .none then "" else " +- " ++ pyStr e)
      ++ (if m = .none then "" else " [" ++ pyStr m ++ "]") ++ "\n"
  | .vlist [] => ""
  | .vlist ((k, v) :: es) =>
    "\x7b" ++ (if v = .none then pyStr k else pyStr k ++ "=" ++ writeValue v)
      ++ entriesWriteRest es ++ "\x7d"
  | .elemLI es =>
    "\x7b\\fill" ++ olistWrite es
      ++ "(0cm, -0.1cm) rectangle(0.6cm, 0.1cm);"
      ++ "\\draw[mark repeat=2,mark phase=2] plot coordinates \x7b(0cm,0cm) (0.3cm,0cm) (0.6cm,0cm)\x7d; \x7d"
  | .vioLegend es o =>
    "\x7b\\path[/pgfplots/.cd, smooth]"
      ++ (if o = "vertical" then
            " plot coordinates \x7b(0.0cm, 0.3cm) (0.2cm, 0.125cm) (0.1cm, 0.0cm) (0.0cm, -0.3cm) (-0.1cm, 0.0cm) (-0.2cm, 0.125cm) (0.0cm, 0.3cm)\x7d;"
              ++ "\\path" ++ olistWrite es
              ++ " plot coordinates \x7b(0cm,-0.3cm) (0cm,0cm) (0cm,0.3cm)\x7d; \x7d"
          else if o = "horizontal" then
            " plot coordinates \x7b(0.0cm, 0.0cm) (0.175cm, 0.2cm) (0.3cm, 0.1cm) (0.6cm, 0.0cm) (0.3cm, -0.1cm) (0.175cm, -0.2cm) (0.0cm, 0.0cm)\x7d;"
              ++ "\\path" ++ olistWrite es
              ++ " plot coordinates \x7b(0cm,0cm) (0.3cm,0cm) (0.6cm,0cm)\x7d; \x7d"
          else "")
  | _ => ""

/-- `BaseList.write` after the first item: `", "` before each further
`write_item` output. -/
def entriesWriteRest : Entries → String
  | [] => ""
  | (k, v) :: es =>
    ", " ++ (if v = .none then pyStr k else pyStr k ++ "=" ++ writeValue v)
      ++ entriesWriteRest es

/-- `OptionList.write`: nothing for an empty container, otherwise the
bracketed item list. -/
def olistWrite : Entries → String
  | [] => ""
  | (k, v) :: es =>
    "[" ++ (if v = .none then pyStr k else pyStr k ++ "=" ++ writeValue v)
      ++ entriesWriteRest es ++ "]"

end

/-- `write_item` inside `BaseList.write`: a key bound to `None` is a bare
flag, otherwise `key=` followed by the value's output. -/
def writeItemStr (k v : PyVal) : String :=
  if v = .none then pyStr k else pyStr k ++ "=" ++ writeValue v

/-! ### Element tree and its serialization

`BaseElement.write` writes the children in order; `TikzCommand.write` emits
`%\n`, `\name`, the option list, then the children; `TikzEnvironment.write`
wraps the children in `\begin{name}` / `\end{name}` markers with `%\n`
separators; `Coordinates.write` wraps its `Coordinate` children in
`coordinates {` … `};`.  The output sink is append-only, so a `write`
method's output is the concatenation of its `file.write` calls. -/

inductive ElemT where
  | cmd (name : String) (options : Entries) (children : List ElemT)
  | env (name : String) (options : Entries) (children : List ElemT)
  | coords (cs : List PyVal)
deriving Repr

mutual

def elemWrite : ElemT → String
  | .cmd name options children =>
    "%\n" ++ "\\" ++ name ++ olistWrite options ++ elemsWrite children
  | .env name options children =>
    "%\n" ++ "\\begin\x7b" ++ name ++ "\x7d" ++ olistWrite options ++ "%\n"
      ++ elemsWrite children ++ "%\n" ++ "\\end\x7b" ++ name ++ "\x7d\n"
  | .coords cs =>
    "%\n" ++ "coordinates \x7b\n" ++ String.join (cs.map writeValue) ++ "\x7d;\n"

def elemsWrite : List ElemT → String
  | [] => ""
  | e :: es => elemWrite e ++ elemsWrite es

end

/-- `Coordinates(data)` with no error/meta terms: one `Coordinate` child per
data point. -/
def mkCoordinates (data : List PyVal) : ElemT :=
  .coords (data.map fun d => .coord d .none .none)

/-! ### The output sink

A sink accepts sequential text writes and may fail (`IOError`) when its
capacity is exhausted; `budget = none` is an unconstrained sink.  A failed
write raises without appending. -/

structure Sink where
  budget : Option Nat
  out : String
deriving Repr, DecidableEq

def wstr (s : String) (k : Sink) : Sink × Option PyErr :=
  match k.budget with
  | Option.none => ({ k with out := k.out ++ s }, Option.none)
  | some b =>
    if s.length ≤ b then ({ budget := some (b - s.length), out := k.out ++ s }, Option.none)
    else (k, some .ioError)

/-! ### Plot elements

`Plot` (command `addplot`) and `CPlot` (command `addplot+`) own an option
container, the coordinate children of their plot data, and the optional
`Label` / `LegendEntry` children (`None` means the label command has no
child and writes nothing). -/

structure PlotS where
  name : String
  options : Entries
  pts : List PyVal
  texlabel : Option PyVal
  legendentry : Option PyVal
deriving Repr, DecidableEq

/-- `Label.write`: a `TikzCommand` named `label` with an empty option list
and one `EncapsulatedValue` child, written only when a label is set. -/
def labelWrite : Option PyVal → String
  | Option.none => ""
  | some v => "%\n" ++ "\\label" ++ olistWrite [] ++ writeValue (mkEncap v)

/-- `LegendEntry.write`: as `labelWrite` for the `addlegendentry` command. -/
def legendWrite : Option PyVal → String
  | Option.none => ""
  | some v => "%\n" ++ "\\addlegendentry" ++ olistWrite [] ++ writeValue (mkEncap v)

/-- `Plot.write`: the `TikzCommand` output (`%\n`, `\name`, options,
`Coordinates` child), then the label and legend children. -/
def plotWrite (p : PlotS) : String :=
  "%\n" ++ "\\" ++ p.name ++ olistWrite p.options
    ++ ("%\n" ++ "coordinates \x7b\n" ++ String.join (p.pts.map writeValue) ++ "\x7d;\n")
    ++ labelWrite p.texlabel ++ legendWrite p.legendentry

/-- `Plot.__init__` (and `CPlot.__init__` with name `addplot+`): build the
option container from the constructor arguments; when a `mark options` key
is present, replace it with `OptionList({'solid': None, 'fill opacity': 1})`
(the assignment coerces that container into a `ValueList` copy) and then
`add` the previous value into the stored copy in place. -/
def mkPlot (name : String) (pts : List PyVal) (args : List PyVal)
    (kwargs : Entries) (texlabel legendentry : Option PyVal) :
    Except PyErr PlotS := do
  let opts ← mkBaseList args kwargs
  let opts ←
    if odHasKey opts (.str "mark options") then do
      let old := (odLookup opts (.str "mark options")).getD .none
      let fresh ← mkBaseList
        [.dict [(.str "solid", .none), (.str "fill opacity", .num 1)]] []
      let opts1 ← setItemT opts (.str "mark options") (.olist fresh)
      match odLookup opts1 (.str "mark options") with
      | some (.vlist stored) => do
        let stored2 ← vlAdd stored old
        pure (odSet opts1 (.str "mark options") (.vlist stored2))
      | _ => pure opts1
    else pure opts
  pure { name := name, options := opts, pts := pts,
         texlabel := texlabel, legendentry := legendentry }

/-! ### `ErrorPlot`: composite of an error band and a line -/

structure ErrorPlotS where
  options : Entries
  error : PlotS
  line : PlotS
deriving Repr, DecidableEq

/-- `ErrorPlot.__init__`: the line plot over `zip(x, y)`, the error band
over the closed outline `zip(chain(x, reversed(x)), chain(y+e₀, reversed(y-e₁)))`,
with the fixed error-band options, `fill opacity = 0.1`, and the caller's
arguments merged into both sub-plots; `add(error_options)` is called without
a `None` check (a `None` argument matches no dispatch branch and is
skipped).  `self.children = [self.error, self.line]`. -/
def mkErrorPlot (x y : List Int) (e : List (Int × Int))
    (args : List PyVal) (kwargs : Entries)
    (line_options error_options : PyVal)
    (texlabel legendentry : Option PyVal) : Except PyErr ErrorPlotS := do
  let opts ← mkBaseList args kwargs
  let linePts := (List.zip x y).map
    (fun p => PyVal.coord (.tup [.num p.1, .num p.2]) .none .none)
  let line ← mkPlot "addplot+" linePts [] [] texlabel legendentry
  let lopts ← vlAddM line.options args kwargs
  let lopts ← if line_options = .none then pure lopts else vlAdd lopts line_options
  let ex := x ++ x.reverse
  let ey := ((List.zip y e).map fun p => p.1 + p.2.1)
    ++ ((List.zip y e).reverse.map fun p => p.1 - p.2.2)
  let errPts := (List.zip ex ey).map
    (fun p => PyVal.coord (.tup [.num p.1, .num p.2]) .none .none)
  let err ← mkPlot "addplot+" errPts [.str "fill", .str "forget plot"]
    [(.str "draw", .str "none"), (.str "mark", .str "none")] Option.none Option.none
  let eopts ← setItemT err.options (.str "fill opacity") (.pfloat "0.1")
  let eopts ← vlAddM eopts args kwargs
  let eopts ← vlAdd eopts error_options
  pure { options := opts,
         error := { err with options := eopts },
         line := { line with options := lopts } }

/-- `ErrorPlot.write`: save both sub-plot option references, install the
merged temporaries (the line's temporary leads with the synthetic
`legend image code/.code` entry holding a `_LegendImage` whose own options
copy the error options; the mutation its `write` performs on those options
is applied here, see `liMutate` and the `writeValue` commentary), run the
inherited `BaseElement.write` over the children `[error, line]`, then put
the saved references back.  There is no `try`/`finally`: an error raised
while writing propagates before the two restore assignments run. -/
def epWrite (ep : ErrorPlotS) (k : Sink) : ErrorPlotS × Sink × Option PyErr :=
  let old_line := ep.line.options
  let old_error := ep.error.options
  match mkBaseList [.olist old_error] [] with
  | .error e => (ep, k, some e)
  | .ok liOpts =>
    match mkBaseList [.dict [(.str "legend image code/.code", .elemLI (liMutate liOpts))],
        .olist ep.options, .olist old_line] [] with
    | .error e => (ep, k, some e)
    | .ok newLine =>
      let ep1 := { ep with line := { ep.line with options := newLine } }
      match mkBaseList [.olist ep.options, .olist old_error] [] with
      | .error e => (ep1, k, some e)
      | .ok newError =>
        let ep2 := { ep1 with error := { ep1.error with options := newError } }
        match wstr (plotWrite ep2.error ++ plotWrite ep2.line) k with
        | (k1, some e) => (ep2, k1, some e)
        | (k1, Option.none) =>
          ({ ep2 with error := { ep2.error with options := old_error },
                      line := { ep2.line with options := old_line } },
            k1, Option.none)

/-! ### `Violin`: composite of a density outline and a centre line -/

structure ViolinS where
  options : Entries
  violin : PlotS
  line : PlotS
  orientation : String
deriving Repr, DecidableEq

/-- `Violin.__init__` for integer data: outline `y` runs down one side of
the pdf and back up the mirrored side; an unknown orientation raises
`ValueError`; `min`/`max` of an empty sequence raise `ValueError`. -/
def mkViolin (x pdf : List Int) (location : Int) (orientation : String)
    (args : List PyVal) (kwargs : Entries)
    (line_options violin_options : PyVal)
    (texlabel legendentry : Option PyVal) : Except PyErr ViolinS := do
  let y := (pdf.map fun p => location - p) ++ (pdf.reverse.map fun p => location + p)
  let some xmin := x.min? | throw .valueError
  let some xmax := x.max? | throw .valueError
  let (violinPts, linePts) ←
    if orientation = "vertical" then
      pure ((List.zip y (x ++ x.reverse)).map
          (fun p => PyVal.coord (.tup [.num p.1, .num p.2]) .none .none),
        [PyVal.coord (.tup [.num location, .num xmin]) .none .none,
         PyVal.coord (.tup [.num location, .num xmax]) .none .none])
    else if orientation = "horizontal" then
      pure ((List.zip (x ++ x.reverse) y).map
          (fun p => PyVal.coord (.tup [.num p.1, .num p.2]) .none .none),
        [PyVal.coord (.tup [.num xmin, .num location]) .none .none,
         PyVal.coord (.tup [.num xmax, .num location]) .none .none])
    else throw .valueError
  let violin ← mkPlot "addplot+" violinPts [] [] Option.none Option.none
  let line ← mkPlot "addplot" linePts [] [] texlabel legendentry
  let lopts ← vlAddM line.options
    [.str "thin", .str "no marks", .str "forget plot"] [(.str "draw", .str "black")]
  let vopts ← vlAddM violin.options
    [.str "fill", .str "no marks"] [(.str "draw", .str "none")]
  let opts ← mkBaseList args kwargs
  let vopts ← vlAdd vopts violin_options
  let lopts ← vlAdd lopts line_options
  pure { options := opts,
         violin := { violin with options := vopts },
         line := { line with options := lopts },
         orientation := orientation }

/-- `Violin.write`: install the merged line options, then the merged violin
options led by the synthetic legend entry, write the children
`[violin, line]`, then restore both saved references; as in
`ErrorPlot.write` there is no `try`/`finally`.  `self._legend` holds a
reference to the violin and its `write` copies `self.violin.line.options`,
which during this write are the freshly installed line options (installed
first and unchanged until the restore); the model takes that copy — and
applies the mutation the legend `write` performs on it (`vioMutate`,
see the `writeValue` commentary) — here. -/
def vioWrite (v : ViolinS) (k : Sink) : ViolinS × Sink × Option PyErr :=
  let old_line := v.line.options
  let old_violin := v.violin.options
  match mkBaseList [.olist v.options, .olist old_line] [] with
  | .error e => (v, k, some e)
  | .ok newLine =>
    let v1 := { v with line := { v.line with options := newLine } }
    match mkBaseList [.olist newLine] [] with
    | .error e => (v1, k, some e)
    | .ok legendCopy =>
      match mkBaseList
          [.dict [(.str "legend image code/.code",
              .vioLegend (vioMutate legendCopy) v.orientation)],
            .olist v.options, .olist old_violin] [] with
      | .error e => (v1, k, some e)
      | .ok newViolin =>
        let v2 := { v1 with violin := { v1.violin with options := newViolin } }
        match wstr (plotWrite v2.violin ++ plotWrite v2.line) k with
        | (k1, some e) => (v2, k1, some e)
        | (k1, Option.none) =>
          ({ v2 with violin := { v2.violin with options := old_violin },
                     line := { v2.line with options := old_line } },
            k1, Option.none)

/-! ### `GroupPlot` -/

/-- `Node.write` as specialized by `GroupPlot.XLabel` / `GroupPlot.YLabel`:
skipped entirely when no label value is set, otherwise the `node` command
(`%\n`, `\node`, options, the `EncapsulatedValue` child) followed by `;`. -/
def nodeWrite (options : Entries) (val : Option PyVal) : String :=
  match val with
  | Option.none => ""
  | some v => "%\n" ++ "\\node" ++ olistWrite options ++ writeValue (mkEncap v) ++ ";"

structure GroupPlotS where
  options : Entries
  rows : Int
  cols : Int
  children : List ElemT
  xlabelOptions : Entries
  xlabelValue : Option PyVal
  ylabelOptions : Entries
  ylabelValue : Option PyVal
deriving Repr

/-- The option mutation at the start of `GroupPlot.write`:

* no `group style` key → insert one holding
  `{'columns': self.cols, 'rows': self.rows}` (coerced on insertion);
* `group style` present with none of `group size`/`columns`/`rows` →
  set `columns` and `rows` in the stored container in place;
* otherwise leave the options alone.

The membership test `'group size' in go` on a stored value that is not a
container raises `TypeError`. -/
def gpMutate (options : Entries) (rows cols : Int) : Except PyErr Entries :=
  if odHasKey options (.str "group style") then
    match odLookup options (.str "group style") with
    | some (.vlist go) =>
      if odHasKey go (.str "group size") || odHasKey go (.str "columns")
          || odHasKey go (.str "rows") then .ok options
      else do
        let go1 ← setItemT go (.str "columns") (.num cols)
        let go2 ← setItemT go1 (.str "rows") (.num rows)
        .ok (odSet options (.str "group style") (.vlist go2))
    | _ => .error .typeError
  else
    setItemT options (.str "group style")
      (.dict [(.str "columns", .num cols), (.str "rows", .num rows)])

/-- `GroupPlot.write`: mutate the element's own options (no save/restore),
then write the `scope` wrapper around the inherited `TikzEnvironment.write`
of the `groupplot` environment, then the y and x labels. -/
def gpWrite (g : GroupPlotS) (k : Sink) : GroupPlotS × Sink × Option PyErr :=
  match gpMutate g.options g.rows g.cols with
  | .error e => (g, k, some e)
  | .ok opts1 =>
    let g1 := { g with options := opts1 }
    let body := "\\begin\x7bscope\x7d[local bounding box=gbox]"
      ++ elemWrite (.env "groupplot" g1.options g1.children)
      ++ "\\end\x7bscope\x7d"
      ++ nodeWrite g1.ylabelOptions g1.ylabelValue
      ++ nodeWrite g1.xlabelOptions g1.xlabelValue
    match wstr body k with
    | (k1, e) => (g1, k1, e)

/-- Default `XLabel` options: `OptionList('/pgfplots/every axis label')`,
then the `north` position setter stores `at` and `anchor`. -/
def xlabelDefaultOptions : Except PyErr Entries := do
  let o ← mkBaseList [.str "/pgfplots/every axis label"] []
  let o ← setItemT o (.str "at") (.str "(gbox.north)")
  setItemT o (.str "anchor") (.str "south")

/-- Default `YLabel` options: `OptionList('/pgfplots/every axis label',
('anchor', 'south'))`, then the `west` position setter stores `at` and
`rotate`. -/
def ylabelDefaultOptions : Except PyErr Entries := do
  let o ← mkBaseList [.str "/pgfplots/every axis label", .tup [.str "anchor", .str "south"]] []
  let o ← setItemT o (.str "at") (.str "(gbox.west)")
  setItemT o (.str "rotate") (.num 90)

/-- `GroupPlot.__init__` with the default `xlabel=None` / `ylabel=None`
(each label is constructed with no value and therefore writes nothing). -/
def mkGroupPlot (args : List PyVal) (kwargs : Entries) (rows cols : Int) :
    Except PyErr GroupPlotS := do
  let opts ← mkBaseList args kwargs
  let xo ← xlabelDefaultOptions
  let yo ← ylabelDefaultOptions
  pure { options := opts, rows := rows, cols := cols, children := [],
         xlabelOptions := xo, xlabelValue := Option.none,
         ylabelOptions := yo, ylabelValue := Option.none }

/-! ### Escaping utility -/

/-- The substitution table of `tikz_escape_value`, with the
`EscapeDict.__missing__` default mapping every other character to itself. -/
def escapeChar (c : Char) : String :=
  if c = '&' then "\\&"
  else if c = '_' then "\\_"
  else if c = '$' then "\\$"
  else if c = '^' then "\\^"
  else if c = '#' then "\\#"
  else if c = '%' then "\\%"
  else if c = Char.ofNat 123 then "\\\x7b"
  else if c = Char.ofNat 125 then "\\\x7d"
  else if c = '\\' then "\\textbackslash"
  else String.singleton c

/-- `"".join(escape_dict[v] for v in value)`: iterating a string yields its
characters. -/
def escapeStr (s : String) : String :=
  String.join (s.toList.map escapeChar)

mutual

/-- `tikz_escape_value`, branch by branch in source order: strings are
escaped; every other iterable — including every mapping, since mappings are
iterable — takes the `Iterable` branch, which rebuilds a *list* of the
escaped iteration elements (iterating a mapping yields its keys, so a
mapping's values and its type are dropped); the subsequent `Mapping` branch
of the source is therefore unreachable; any non-iterable value is returned
unchanged. -/
def tikz_escape_value : PyVal → PyVal
  | .str s => .str (escapeStr s)
  | .tup xs => .list (tevList xs)
  | .list xs => .list (tevList xs)
  | .dict es => .list (tevKeys es)
  | .vlist es => .list (tevKeys es)
  | .olist es => .list (tevKeys es)
  | v => v

def tevList : List PyVal → List PyVal
  | [] => []
  | x :: xs => tikz_escape_value x :: tevList xs

/-- Iterating a mapping yields its keys. -/
def tevKeys : Entries → List PyVal
  | [] => []
  | (k, _) :: es => tikz_escape_value k :: tevKeys es

end

/-- The body of the unreachable `Mapping` branch of `tikz_escape_value`:
rebuild the mapping with each value escaped (`type(value)((k,
tikz_escape_value(v)) for k, v in value.items())`).  It is what the branch
would return were it reachable. -/
def tikz_escape_mapping (es : Entries) : Entries :=
  es.map (fun e => (e.1, tikz_escape_value e.2))

/-! ### `TikzElement` option-item protocol -/

/-- `OrderedDict.__delitem__`: deleting an absent key raises `KeyError`. -/
def odDelItem (options : Entries) (k : PyVal) : Except PyErr Entries :=
  if odHasKey options k then .ok (odDel options k) else .error .keyError

/-- `TikzElement.__getitem__`: `self.options[item]`; a missing key raises
`KeyError`. -/
def elemGetItem (options : Entries) (k : PyVal) : Except PyErr PyVal :=
  match odLookup options k with
  | some v => .ok v
  | Option.none => .error .keyError

/-- `TikzElement.__delitem__`: `if key in self.options: del(self.options[key])`
— the delete is guarded, so deleting an absent key is silently a no-op. -/
def elemDelItem (options : Entries) (k : PyVal) : Except PyErr Entries :=
  if odHasKey options k then odDelItem options k else .ok options

/-! ### Predicates and sample elements used by the claims -/

def isStr : PyVal → Bool
  | .str _ => true
  | _ => false

/-- A tuple of length exactly two (the pair rule of `add`). -/
def isPair2 : PyVal → Bool
  | .tup [_, _] => true
  | _ => false

/-- An argument to `add` matching none of the four dispatch rules: not a
mapping, not a 2-element pair, not a string or number scalar, not an
iterable. -/
def addMatchesNoBranch (v : PyVal) : Bool :=
  !isMapping v && !isPair2 v && !isStr v && !isNumber v && !isIterable v

/-- The key sets of two entry lists do not intersect (under the host `==`). -/
def keysDisjoint (es1 es2 : List (PyVal × PyVal)) : Bool :=
  es1.all (fun e => !(es2.any (fun e2 => e2.1 == e.1)))

/-- `ErrorPlot(x=[0], y=[0], e=[(1, 1)])`: the value of `mkErrorPlot` on that
input (checked in the C2 theorems). -/
def epSample : ErrorPlotS :=
  { options := [],
    error := { name := "addplot+",
               options := [(.str "fill", .none), (.str "forget plot", .none),
                           (.str "draw", .value (.str "none")),
                           (.str "mark", .value (.str "none")),
                           (.str "fill opacity", .value (.pfloat "0.1"))],
               pts := [.coord (.tup [.num 0, .num 1]) .none .none,
                       .coord (.tup [.num 0, .num (-1)]) .none .none],
               texlabel := Option.none, legendentry := Option.none },
    line := { name := "addplot+", options := [],
              pts := [.coord (.tup [.num 0, .num 0]) .none .none],
              texlabel := Option.none, legendentry := Option.none } }

/-- `Violin(x=[0, 1], pdf=[1], location=0, orientation='vertical')`: the value
of `mkViolin` on that input. -/
def vioSample : ViolinS :=
  { options := [],
    violin := { name := "addplot+",
                options := [(.str "fill", .none), (.str "no marks", .none),
                            (.str "draw", .value (.str "none"))],
                pts := [.coord (.tup [.num (-1), .num 0]) .none .none,
                        .coord (.tup [.num 1, .num 1]) .none .none],
                texlabel := Option.none, legendentry := Option.none },
    line := { name := "addplot",
              options := [(.str "thin", .none), (.str "no marks", .none),
                          (.str "forget plot", .none),
                          (.str "draw", .value (.str "black"))],
              pts := [.coord (.tup [.num 0, .num 0]) .none .none,
                      .coord (.tup [.num 0, .num 1]) .none .none],
              texlabel := Option.none, legendentry := Option.none },
    orientation := "vertical" }

/-- A default `GroupPlot()` (no options, one row, one column). -/
def gpSample : GroupPlotS :=
  { options := [], rows := 1, cols := 1, children := [],
    xlabelOptions := [(.str "/pgfplots/every axis label", .none),
                      (.str "at", .value (.str "(gbox.north)")),
                      (.str "anchor", .value (.str "south"))],
    xlabelValue := Option.none,
    ylabelOptions := [(.str "/pgfplots/every axis label", .none),
                      (.str "anchor", .value (.str "south")),
                      (.str "at", .value (.str "(gbox.west)")),
                      (.str "rotate", .value (.num 90))],
    ylabelValue := Option.none }

/-- A `GroupPlot` whose caller already set a `group style` holding none of
`group size`/`columns`/`rows`. -/
def gpSampleB : GroupPlotS :=
  { gpSample with
    rows := 2
    cols := 3
    options := [(.str "group style",
      .vlist [(.str "xticklabels at", .value (.str "all"))])] }

/-! ### Coercion totality away from empty tuples

`as_tikz_value` can only raise through `value[0]` on an empty tuple, either
directly or on an empty tuple in a coerced value position of a nested
container; `noEmptyTup` rules the empty tuple out everywhere. -/

mutual

def noEmptyTup : PyVal → Bool
  | .none | .str _ | .num _ | .pfloat _ => true
  | .tup xs => !xs.isEmpty && noEmptyTupL xs
  | .list xs => noEmptyTupL xs
  | .dict es => noEmptyTupE es
  | .value v => noEmptyTup v
  | .encap v => noEmptyTup v
  | .coord p e m => noEmptyTup p && noEmptyTup e && noEmptyTup m
  | .vlist es => noEmptyTupE es
  | .olist es => noEmptyTupE es
  | .elemLI es => noEmptyTupE es
  | .vioLegend es _ => noEmptyTupE es

def noEmptyTupL : List PyVal → Bool
  | [] => true
  | x :: xs => noEmptyTup x && noEmptyTupL xs

def noEmptyTupE : Entries → Bool
  | [] => true
  | (k, v) :: es => noEmptyTup k && noEmptyTup v && noEmptyTupE es

end

/-! ### Lookup characterization of the mapping-insertion loop

`assocLast es k` is the value of the last pair in `es` whose key equals
`k`; inserting the pairs of `es` into `d` in order leaves exactly the
coercion of that value at `k`, and `d`'s binding otherwise. -/

def assocLast : List (PyVal × PyVal) → PyVal → Option PyVal
  | [], _ => Option.none
  | (k0, v0) :: rest, k =>
    match assocLast rest k with
    | some v => some v
    | Option.none => if k0 = k then some v0 else Option.none

/-! ### General lemmas about the `OrderedDict` primitives -/

instance {e a : Type} [DecidableEq e] [DecidableEq a] : DecidableEq (Except e a) :=
  fun x y =>
    match x, y with
    | .ok u, .ok v => decidable_of_iff (u = v) (by simp)
    | .error u, .error v => decidable_of_iff (u = v) (by simp)
    | .ok _, .error _ => isFalse (by simp)
    | .error _, .ok _ => isFalse (by simp)

theorem odLookup_nil (k : PyVal) : odLookup [] k = Option.none := rfl

theorem odLookup_cons (k0 v0 : PyVal) (d : Entries) (k : PyVal) :
    odLookup ((k0, v0) :: d) k =
      if k0 = k then some v0 else odLookup d k := by
  unfold odLookup
  rcases Decidable.em (k0 = k) with h | h
  · simp [List.find?, h]
  · simp only [List.find?]
    rw [show ((k0, v0).1 == k) = false by simpa using h]
    simp [h]

theorem odHasKey_nil (k : PyVal) : odHasKey [] k = false := rfl

theorem odHasKey_cons (k0 v0 : PyVal) (d : Entries) (k : PyVal) :
    odHasKey ((k0, v0) :: d) k = (k0 == k || odHasKey d k) := by
  simp [odHasKey, List.any]

theorem odHasKey_eq_isSome_odLookup (d : Entries) (k : PyVal) :
    odHasKey d k = (odLookup d k).isSome := by
  induction d with
  | nil => rfl
  | cons e d ih =>
    obtain ⟨k0, v0⟩ := e
    rw [odHasKey_cons, odLookup_cons]
    rcases Decidable.em (k0 = k) with h | h
    · simp [h]
    · simp only [if_neg h, ih, Bool.or_eq_true]
      rw [show (k0 == k) = false by simpa using h]
      simp

/-- A key reported absent by `__contains__` has no binding. -/
theorem odLookup_none_of_hasKey_false (d : Entries) (k : PyVal)
    (h : odHasKey d k = false) : odLookup d k = Option.none := by
  have hs := odHasKey_eq_isSome_odLookup d k
  rw [h] at hs
  cases ho : odLookup d k
  · rfl
  · rw [ho] at hs; simp at hs

theorem odLookup_mapReplace_ne (d : Entries) (k v k' : PyVal) (h : ¬ k' = k) :
    odLookup (d.map (fun e => if e.1 == k then (e.1, v) else e)) k' =
      odLookup d k' := by
  induction d with
  | nil => rfl
  | cons e d ih =>
    obtain ⟨k0, v0⟩ := e
    simp only [List.map_cons]
    by_cases h0 : k0 = k
    · rw [if_pos (by simpa using h0), odLookup_cons, odLookup_cons]
      have : ¬ k0 = k' := by rw [h0]; intro hc; exact h (hc.symm)
      rw [if_neg this, if_neg this, ih]
    · rw [if_neg (by simpa using h0), odLookup_cons, odLookup_cons]
      by_cases h1 : k0 = k'
      · rw [if_pos h1, if_pos h1]
      · rw [if_neg h1, if_neg h1, ih]

theorem odLookup_mapReplace_eq (d : Entries) (k v : PyVal)
    (h : odHasKey d k = true) :
    odLookup (d.map (fun e => if e.1 == k then (e.1, v) else e)) k = some v := by
  induction d with
  | nil => rw [odHasKey_nil] at h; exact absurd h (by simp)
  | cons e d ih =>
    obtain ⟨k0, v0⟩ := e
    rw [odHasKey_cons] at h
    simp only [List.map_cons]
    by_cases h0 : k0 = k
    · rw [if_pos (by simpa using h0), odLookup_cons, if_pos h0]
    · rw [if_neg (by simpa using h0), odLookup_cons, if_neg h0]
      refine ih ?_
      rcases (Bool.or_eq_true _ _).mp h with hc | hc
      · exact absurd (by simpa using hc) h0
      · exact hc

theorem odLookup_append_single (d : Entries) (k v k' : PyVal)
    (h : odHasKey d k = false) :
    odLookup (d ++ [(k, v)]) k' = if k' = k then some v else odLookup d k' := by
  induction d with
  | nil =>
    simp only [List.nil_append, odLookup_cons, odLookup_nil]
    by_cases h1 : k' = k
    · rw [if_pos h1, if_pos h1.symm]
    · rw [if_neg h1, if_neg (fun hc => h1 hc.symm)]
  | cons e d ih =>
    obtain ⟨k0, v0⟩ := e
    rw [odHasKey_cons] at h
    have hk0 : ¬ k0 = k := by
      intro hc
      rw [show (k0 == k) = true by simpa using hc] at h
      simp at h
    simp only [List.cons_append, odLookup_cons]
    by_cases h1 : k0 = k'
    · have : ¬ k' = k := by intro hc; exact hk0 (h1.trans hc)
      rw [if_pos h1, if_neg this, if_pos h1]
    · rw [if_neg h1, if_neg h1, ih (by
        cases hb : odHasKey d k
        · rfl
        · rw [hb] at h; simp at h)]

theorem odLookup_odSet (d : Entries) (k v k' : PyVal) :
    odLookup (odSet d k v) k' = if k' = k then some v else odLookup d k' := by
  unfold odSet
  by_cases h : odHasKey d k
  · rw [if_pos h]
    by_cases h1 : k' = k
    · rw [if_pos h1, h1, odLookup_mapReplace_eq d k v h]
    · rw [if_neg h1, odLookup_mapReplace_ne d k v k' h1]
  · rw [if_neg h]
    exact odLookup_append_single d k v k' (by simpa using h)

theorem odKeys_odSet_present (d : Entries) (k v : PyVal) (h : odHasKey d k = true) :
    odKeys (odSet d k v) = odKeys d := by
  unfold odSet
  rw [if_pos h]
  unfold odKeys
  rw [List.map_map]
  congr 1
  funext e
  by_cases he : e.1 = k <;> simp [he]

theorem odSet_absent (es : Entries) (k v : PyVal) (h : odHasKey es k = false) :
    odSet es k v = es ++ [(k, v)] := by
  unfold odSet
  simp [h]

/-! ### Bridge lemmas for the inlined legend-image mutations

`liMutate` and `vioMutate` above inline the dispatch of the constant
arguments the legend `write` methods pass to `__setitem__` / `add`; these
lemmas check the inlining against the real merge machinery. -/

theorem liMutate_bridge (es : Entries) :
    setItemT es (.str "draw") (.str "none") =
      .ok (odSet es (.str "draw") (.value (.str "none"))) := by
  simp [setItemT, as_tikz_value, Except.map]

theorem vioMutate_bridge (es : Entries) :
    vlAddM es [.str "/pgfplots/.cd",
        .dict [(.str "mark repeat", .num 2), (.str "mark phase", .num 2)]] [] =
      .ok (odSet (odSet (odSet es (.str "/pgfplots/.cd") .none)
          (.str "mark repeat") (.value (.num 2)))
        (.str "mark phase") (.value (.num 2))) := by
  simp [vlAddM, vlAddSeq, vlAdd, setEntriesT, setItemT, as_tikz_value,
    Except.map, Bind.bind, Except.bind]

theorem except_isOk_iff {e a : Type} (r : Except e a) :
    r.isOk = true ↔ ∃ x, r = .ok x := by
  cases r <;> simp [Except.isOk, Except.toBool]

theorem atv_total_aux : ∀ n : Nat,
    (∀ v : PyVal, sizeOf v ≤ n → noEmptyTup v = true →
      (as_tikz_value v).isOk = true) ∧
    (∀ xs : List PyVal, sizeOf xs ≤ n → xs ≠ [] → noEmptyTupL xs = true →
      (atvTuple xs).isOk = true) ∧
    (∀ xs : List PyVal, sizeOf xs ≤ n → noEmptyTupL xs = true →
      ∀ d, (vlAddSeq d xs).isOk = true) ∧
    (∀ es : Entries, sizeOf es ≤ n → noEmptyTupE es = true →
      ∀ d, (setEntriesT d es).isOk = true) ∧
    (∀ v : PyVal, sizeOf v ≤ n → noEmptyTup v = true →
      ∀ d, (vlAdd d v).isOk = true) := by
  intro n
  induction n with
  | zero =>
    refine ⟨?_, ?_, ?_, ?_, ?_⟩
    · intro v h; exfalso; cases v <;> simp at h
    · intro xs h; exfalso; cases xs <;> simp at h
    · intro xs h; exfalso; cases xs <;> simp at h
    · intro es h; exfalso; cases es <;> simp at h
    · intro v h; exfalso; cases v <;> simp at h
  | succ m ih =>
    obtain ⟨ihV, ihT, ihS, ihE, ihA⟩ := ih
    refine ⟨?_, ?_, ?_, ?_, ?_⟩
    · -- as_tikz_value
      intro v hs hn
      cases v <;> simp only [as_tikz_value, Except.isOk, Except.toBool]
      case tup xs =>
        simp only [noEmptyTup, Bool.and_eq_true] at hn
        have h1 : xs ≠ [] := by
          cases xs
          · simp at hn
          · simp
        exact ihT xs (by simp at hs; omega) h1 hn.2
      case list xs =>
        simp only [noEmptyTup] at hn
        have := ihS xs (by simp at hs; omega) hn []
        rcases (except_isOk_iff _).mp this with ⟨d1, hd1⟩
        rw [hd1]; rfl
      case dict es =>
        simp only [noEmptyTup] at hn
        have := ihE es (by simp at hs; omega) hn []
        rcases (except_isOk_iff _).mp this with ⟨d1, hd1⟩
        rw [hd1]; rfl
      case olist es =>
        simp only [noEmptyTup] at hn
        have := ihE es (by simp at hs; omega) hn []
        rcases (except_isOk_iff _).mp this with ⟨d1, hd1⟩
        rw [hd1]; rfl
    · -- atvTuple
      intro xs hs hne hn
      match xs with
      | [] => exact absurd rfl hne
      | [x] =>
        simp only [noEmptyTupL, Bool.and_eq_true] at hn
        simp only [atvTuple]
        split
        · rfl
        · have := ihA x (by simp at hs; omega) hn.1 []
          rcases (except_isOk_iff _).mp this with ⟨d1, hd1⟩
          rw [hd1]; rfl
      | [x, b] =>
        simp only [noEmptyTupL, Bool.and_eq_true] at hn
        simp only [atvTuple]
        split
        · rfl
        · have := ihV b (by simp at hs; omega) hn.2.1
          rcases (except_isOk_iff _).mp this with ⟨w, hw⟩
          rw [hw]; rfl
      | x :: y :: z :: rest =>
        simp only [noEmptyTupL, Bool.and_eq_true] at hn
        simp only [atvTuple]
        split
        · rfl
        · have hx := ihA x (by simp at hs; omega) hn.1 []
          rcases (except_isOk_iff _).mp hx with ⟨d1, hd1⟩
          have hy := ihA y (by simp at hs; omega) hn.2.1 d1
          rcases (except_isOk_iff _).mp hy with ⟨d2, hd2⟩
          have hz := ihA z (by simp at hs; omega) hn.2.2.1 d2
          rcases (except_isOk_iff _).mp hz with ⟨d3, hd3⟩
          have hr := ihS rest (by simp at hs; omega) hn.2.2.2 d3
          rcases (except_isOk_iff _).mp hr with ⟨d4, hd4⟩
          simp [hd1, hd2, hd3, hd4, Except.map, Except.isOk, Except.toBool]
    · -- vlAddSeq
      intro xs hs hn d
      cases xs with
      | nil => rfl
      | cons x rest =>
        simp only [noEmptyTupL, Bool.and_eq_true] at hn
        simp only [vlAddSeq]
        have hx := ihA x (by simp at hs; omega) hn.1 d
        rcases (except_isOk_iff _).mp hx with ⟨d1, hd1⟩
        rw [hd1]
        exact ihS rest (by simp at hs; omega) hn.2 d1
    · -- setEntriesT
      intro es hs hn d
      cases es with
      | nil => rfl
      | cons e rest =>
        obtain ⟨k, v⟩ := e
        simp only [noEmptyTupE, Bool.and_eq_true] at hn
        simp only [setEntriesT]
        have hv := ihV v (by simp at hs; omega) hn.1.2
        rcases (except_isOk_iff _).mp hv with ⟨w, hw⟩
        rw [hw]
        exact ihE rest (by simp at hs; omega) hn.2 (odSet d k w)
    · -- vlAdd
      intro v hs hn d
      cases v
      case dict es =>
        simp only [noEmptyTup] at hn
        exact ihE es (by simp at hs; omega) hn d
      case vlist es =>
        simp only [noEmptyTup] at hn
        exact ihE es (by simp at hs; omega) hn d
      case olist es =>
        simp only [noEmptyTup] at hn
        exact ihE es (by simp at hs; omega) hn d
      case list xs =>
        simp only [noEmptyTup] at hn
        exact ihS xs (by simp at hs; omega) hn d
      case tup xs =>
        simp only [noEmptyTup, Bool.and_eq_true] at hn
        cases xs with
        | nil => simp at hn
        | cons a xs1 =>
          cases xs1 with
          | nil =>
            exact ihS [a] (by simp at hs ⊢; omega)
              (by simp only [noEmptyTupL, Bool.and_eq_true] at hn ⊢
                  exact ⟨hn.2.1, trivial⟩) d
          | cons b xs2 =>
            cases xs2 with
            | nil =>
              simp only [noEmptyTupL, Bool.and_eq_true] at hn
              have := ihV b (by simp at hs; omega) hn.2.2.1
              rcases (except_isOk_iff _).mp this with ⟨w, hw⟩
              show (Except.map (odSet d a) (as_tikz_value b)).isOk = true
              rw [hw]
              rfl
            | cons c rest =>
              exact ihS (a :: b :: c :: rest) (by simp at hs ⊢; omega) hn.2 d
      all_goals rfl

theorem as_tikz_value_total (v : PyVal) (h : noEmptyTup v = true) :
    (as_tikz_value v).isOk = true :=
  (atv_total_aux (sizeOf v)).1 v (Nat.le_refl _) h

theorem setEntriesT_lookup :
    ∀ (es : List (PyVal × PyVal)) (d r : Entries), setEntriesT d es = .ok r →
      ∀ k, odLookup r k =
        match assocLast es k with
        | some v => (as_tikz_value v).toOption
        | Option.none => odLookup d k := by
  intro es
  induction es with
  | nil =>
    intro d r h k
    simp only [setEntriesT] at h
    cases h
    rfl
  | cons e rest ih =>
    intro d r h k
    obtain ⟨k0, v0⟩ := e
    simp only [setEntriesT] at h
    cases hw : as_tikz_value v0 with
    | error err => rw [hw] at h; cases h
    | ok w =>
      rw [hw] at h
      have := ih (odSet d k0 w) r h k
      simp only [assocLast]
      cases hal : assocLast rest k with
      | some v => rw [hal] at this; exact this
      | none =>
        rw [hal] at this
        dsimp only at this
        by_cases hk : k0 = k
        · rw [this, odLookup_odSet, if_pos hk.symm, if_pos hk]
          dsimp only
          rw [hw]
          rfl
        · rw [this, odLookup_odSet, if_neg (fun hc => hk hc.symm), if_neg hk]

theorem assocLast_hasKey (es : List (PyVal × PyVal)) (k : PyVal) (v : PyVal)
    (h : assocLast es k = some v) : es.any (fun e => e.1 == k) = true := by
  induction es with
  | nil => simp [assocLast] at h
  | cons e rest ih =>
    obtain ⟨k0, v0⟩ := e
    simp only [assocLast] at h
    cases hal : assocLast rest k with
    | some w =>
      simp only [List.any_cons, Bool.or_eq_true]
      exact Or.inr (ih (by rw [hal] at h; rw [hal]; exact h))
    | none =>
      rw [hal] at h
      by_cases hk : k0 = k
      · simp [hk]
      · rw [if_neg hk] at h; cases h

/-! ## The claims -/

/-- Claim C1: serializing `Environment("axis")` containing
`Command("addplot", options={\x27color\x27: \x27red\x27})` wrapping the coordinate
list `[(0, 0), (1, 2)]` writes exactly
`\begin{axis}\n\addplot[color=red]{coordinates {\n(0, 0)\n(1, 2)\n};\n}\n\end{axis}\n`.
Refuted: the options merge to `color=red` as claimed, but `TikzCommand.write`
and `TikzEnvironment.write` each begin with a `%\n` comment guard (and so do
the children), the environment markers carry `%\n` separators rather than
plain newlines, and a command does not brace-wrap its children, so the text
written differs from the claimed one. -/
theorem C1_counterexample :
    mkBaseList [] [(.str "color", .str "red")] =
      .ok [(.str "color", .value (.str "red"))] ∧
    elemWrite (.env "axis" []
        [.cmd "addplot" [(.str "color", .value (.str "red"))]
          [mkCoordinates [.tup [.num 0, .num 0], .tup [.num 1, .num 2]]]]) ≠
      "\\begin\x7baxis\x7d\n\\addplot[color=red]\x7bcoordinates \x7b\n(0, 0)\n(1, 2)\n\x7d;\n\x7d\n\\end\x7baxis\x7d\n" :=
  ⟨rfl, by decide⟩

/-- Claim C1 (amended): the same element tree serializes to exactly
`%\n\begin{axis}%\n%\n\addplot[color=red]%\ncoordinates {\n(0, 0)\n(1, 2)\n};\n%\n\end{axis}\n`:
every element write starts with a `%\n` guard, the environment adds a `%\n`
after its options and before `\end`, and the command simply concatenates its
children after the bracketed options. -/
theorem C1_write_axis_addplot :
    mkBaseList [] [(.str "color", .str "red")] =
      .ok [(.str "color", .value (.str "red"))] ∧
    elemWrite (.env "axis" []
        [.cmd "addplot" [(.str "color", .value (.str "red"))]
          [mkCoordinates [.tup [.num 0, .num 0], .tup [.num 1, .num 2]]]]) =
      "%\n\\begin\x7baxis\x7d%\n%\n\\addplot[color=red]%\ncoordinates \x7b\n(0, 0)\n(1, 2)\n\x7d;\n%\n\\end\x7baxis\x7d\n" :=
  ⟨rfl, rfl⟩

/-- Claim C3: an `add` argument matching none of the four dispatch rules
(e.g. `None`) raises immediately. Refuted: `BaseList.add` has no `else`
branch, so an unmatched positional argument is silently ignored and the
container is returned unchanged — here `add(None)` on a non-empty container
succeeds without altering it. -/
theorem C3_counterexample :
    vlAdd [(.str "color", .value (.str "red"))] .none =
      .ok [(.str "color", .value (.str "red"))] := rfl

/-- Claim C3 (amended): an `add` argument matching none of the dispatch rules
(not a mapping, not a 2-element tuple, not a string or number, not an
iterable) is silently ignored: `add` returns the container unchanged and
raises nothing, deferring no failure anywhere. -/
theorem C3_add_unmatched_ignored :
    ∀ (d : Entries) (v : PyVal), addMatchesNoBranch v = true → vlAdd d v = .ok d := by
  intro d v h
  cases v <;> first
    | rfl
    | simp [addMatchesNoBranch, isMapping, isPair2, isStr, isNumber,
        isIterable] at h

/-- Witness for C3: `None` matches no dispatch rule and `add(None)` leaves an
empty container empty. -/
theorem C3_witness :
    addMatchesNoBranch PyVal.none = true ∧ vlAdd [] PyVal.none = .ok [] :=
  ⟨rfl, C3_add_unmatched_ignored [] PyVal.none rfl⟩

/-- Claim C6: an empty `ValueList` serializes to `{}`, an empty `OptionList`
writes nothing, a non-empty `OptionList` writes a non-empty bracketed list.
Refuted in the first part: `ValueList.write` is guarded by `if self:` exactly
like `OptionList.write`, so an empty `ValueList` also writes zero bytes, not
the two characters `{}`. -/
theorem C6_counterexample : writeValue (.vlist []) ≠ "\x7b\x7d" := by decide

/-- Claim C6 (amended): an empty `ValueList` writes zero bytes (not `{}`),
an empty `OptionList` also writes zero bytes, and an `OptionList` with at
least one entry writes its items wrapped in `[` … `]`, which is never the
empty string. -/
theorem C6_empty_containers :
    writeValue (.vlist []) = "" ∧
    olistWrite [] = "" ∧
    ∀ (k v : PyVal) (es : Entries),
      olistWrite ((k, v) :: es) =
        "[" ++ writeItemStr k v ++ entriesWriteRest es ++ "]" ∧
      olistWrite ((k, v) :: es) ≠ "" := by
  refine ⟨rfl, rfl, fun k v es => ⟨rfl, fun hc => ?_⟩⟩
  have h1 : (olistWrite ((k, v) :: es)).length = 0 := by rw [hc]; rfl
  rw [show olistWrite ((k, v) :: es) =
      "[" ++ writeItemStr k v ++ entriesWriteRest es ++ "]" from rfl] at h1
  simp only [String.length_append] at h1
  have h2 : String.length "[" = 1 := rfl
  have h3 : String.length "]" = 1 := rfl
  omega

/-- Claim C7: reading or deleting an absent option key raises a lookup error.
Refuted for deletion: `TikzElement.__delitem__` is guarded by
`if key in self.options:`, so deleting an absent key is a silent no-op. -/
theorem C7_counterexample : elemDelItem [] (.str "missing") = .ok [] := rfl

/-- Claim C7 (amended): for an option key not present in an element's
container, reading raises `KeyError` but deleting is a silent no-op that
leaves the container unchanged. -/
theorem C7_missing_key :
    ∀ (opts : Entries) (k : PyVal), odHasKey opts k = false →
      elemGetItem opts k = .error .keyError ∧ elemDelItem opts k = .ok opts := by
  intro opts k h
  have hl : odLookup opts k = Option.none := by
    have hs := odHasKey_eq_isSome_odLookup opts k
    rw [h] at hs
    cases ho : odLookup opts k
    · rfl
    · rw [ho] at hs; simp at hs
  exact ⟨by simp [elemGetItem, hl], by simp [elemDelItem, h]⟩

/-- Witness for C7: reading the absent key `x` raises `KeyError` and deleting
it is a no-op on the empty container. -/
theorem C7_witness :
    elemGetItem [] (.str "x") = .error .keyError ∧
      elemDelItem [] (.str "x") = .ok [] :=
  C7_missing_key [] (.str "x") rfl

/-- Claim C8: escaping a mapping returns a mapping of the same type with keys
and structure intact and text leaves escaped. The code disagrees: in
`tikz_escape_value` the `Iterable` test precedes the `Mapping` test and every
`dict` is an `Iterable`, so the `Mapping` branch is dead; a mapping is
rebuilt as the list of its (escaped) keys, dropping all values and the
mapping type. On `\x7b\x27a_b\x27: \x27c&d\x27\x7d` the code returns the
list `[\x27a\\_b\x27]`, not the same-type mapping `\x7b\x27a\\_b\x27: \x27c\\&d\x27\x7d`
the dead branch (and the claim) would produce. -/
theorem C8_escape_mapping_degenerates :
    tikz_escape_value (.dict [(.str "a_b", .str "c&d")]) =
      .list [.str "a\\_b"] ∧
    tikz_escape_value (.dict [(.str "a_b", .str "c&d")]) ≠
      .dict (tikz_escape_mapping [(.str "a_b", .str "c&d")]) := by
  exact ⟨rfl, by decide⟩

/-- Claim C9: coercion is idempotent — whenever `as_tikz_value x` succeeds
with result `v`, coercing `v` again returns `v` itself (so in particular the
second result serializes to exactly the same text as the first). Confirmed:
every successful coercion result is an already-typed `BaseValue`, `None`, or
a legend element, and `as_tikz_value` returns those unchanged. -/
theorem C9_coercion_idempotent :
    ∀ (x v : PyVal), as_tikz_value x = .ok v → as_tikz_value v = .ok v := by
  intro x v h
  cases x with
  | none => cases h; rfl
  | str s => cases h; rfl
  | num n => cases h; rfl
  | pfloat s => cases h; rfl
  | value w => cases h; rfl
  | encap w => cases h; rfl
  | coord p e m => cases h; rfl
  | vlist es => cases h; rfl
  | elemLI es => cases h; rfl
  | vioLegend es o => cases h; rfl
  | list xs =>
    simp only [as_tikz_value] at h
    cases hs : vlAddSeq [] xs with
    | error e => rw [hs] at h; simp [Except.map] at h
    | ok d => rw [hs] at h; simp [Except.map] at h; rw [← h]; rfl
  | dict es =>
    simp only [as_tikz_value] at h
    cases hs : setEntriesT [] es with
    | error e => rw [hs] at h; simp [Except.map] at h
    | ok d => rw [hs] at h; simp [Except.map] at h; rw [← h]; rfl
  | olist es =>
    simp only [as_tikz_value] at h
    cases hs : setEntriesT [] es with
    | error e => rw [hs] at h; simp [Except.map] at h
    | ok d => rw [hs] at h; simp [Except.map] at h; rw [← h]; rfl
  | tup xs =>
    simp only [as_tikz_value] at h
    cases xs with
    | nil => simp [atvTuple] at h
    | cons x xs1 =>
      cases xs1 with
      | nil =>
        by_cases hb : isNumber x = true
        · rw [show atvTuple [x] = .ok (mkEncap (.tup [x])) by
            simp [atvTuple, hb]] at h
          cases h
          cases x <;> simp [isNumber] at hb <;> rfl
        · rw [show atvTuple [x] =
              (match vlAdd [] x with
                | .ok d1 => .ok (.vlist d1)
                | .error e => .error e) by
            simp [atvTuple, hb]] at h
          cases ha : vlAdd [] x with
          | error e => rw [ha] at h; simp at h
          | ok d1 => rw [ha] at h; simp at h; rw [← h]; rfl
      | cons b xs2 =>
        cases xs2 with
        | nil =>
          by_cases hb : isNumber x = true
          · rw [show atvTuple [x, b] = .ok (mkEncap (.tup [x, b])) by
              simp [atvTuple, hb]] at h
            cases h
            cases x <;> simp [isNumber] at hb <;> rfl
          · rw [show atvTuple [x, b] =
                Except.map (fun w => PyVal.vlist (odSet [] x w))
                  (as_tikz_value b) by
              simp [atvTuple, hb]] at h
            cases ha : as_tikz_value b with
            | error e => rw [ha] at h; simp [Except.map] at h
            | ok w => rw [ha] at h; simp [Except.map] at h; rw [← h]; rfl
        | cons c rest =>
          by_cases hb : isNumber x = true
          · rw [show atvTuple (x :: b :: c :: rest) =
                .ok (mkEncap (.tup (x :: b :: c :: rest))) by
              simp [atvTuple, hb]] at h
            cases h
            cases x <;> simp [isNumber] at hb <;> rfl
          · rw [show atvTuple (x :: b :: c :: rest) =
                (match vlAdd [] x with
                  | .ok d1 =>
                    match vlAdd d1 b with
                    | .ok d2 =>
                      match vlAdd d2 c with
                      | .ok d3 => Except.map PyVal.vlist (vlAddSeq d3 rest)
                      | .error e => .error e
                    | .error e => .error e
                  | .error e => .error e) by
              simp [atvTuple, hb]] at h
            split at h
            · split at h
              · split at h
                · cases h4 : vlAddSeq _ rest with
                  | error e => rw [h4] at h; simp [Except.map] at h
                  | ok d4 =>
                    rw [h4] at h; simp [Except.map] at h; rw [← h]; rfl
                · simp at h
              · simp at h
            · simp at h

/-- Witness for C9: coercing the string `a` yields `Value(\x27a\x27)`, and
coercing that result returns it unchanged. -/
theorem C9_witness :
    as_tikz_value (.value (.str "a")) = .ok (.value (.str "a")) :=
  C9_coercion_idempotent (.str "a") (.value (.str "a")) rfl

set_option maxRecDepth 10000 in
/-- Claim C2: composite elements restore sub-element option containers on
every exit of `write`, including when a child write raises. Refuted:
`ErrorPlot.write` (and `Violin.write`) install merged containers and restore
the saved ones only after `super().write(file)` returns — there is no
`try`/`finally` — so when the sink raises `IOError` while writing, the
sub-elements keep the merged containers: here the line plot of a fresh
`ErrorPlot([0], [0], [(1, 1)])` does not hold its pre-write options after a
failed write. -/
theorem C2_counterexample :
    mkErrorPlot [0] [0] [(1, 1)] [] [] .none .none Option.none Option.none =
      .ok epSample ∧
    (epWrite epSample { budget := some 0, out := "" }).2.2 =
      some PyErr.ioError ∧
    (epWrite epSample { budget := some 0, out := "" }).1.line.options ≠
      epSample.line.options :=
  ⟨by decide, by decide, by decide⟩

/-- Claim C2 (amended): when a composite `write` returns without raising, the
sub-elements' stored option containers are exactly what they were before the
call (so any number of successful repeated writes leaves them unchanged);
but when a child write raises, the temporarily installed merged containers
are not rolled back. -/
theorem C2_restore_on_success :
    (∀ (ep ep' : ErrorPlotS) (s s' : Sink),
      epWrite ep s = (ep', s', Option.none) → ep' = ep) ∧
    (∀ (v v' : ViolinS) (s s' : Sink),
      vioWrite v s = (v', s', Option.none) → v' = v) := by
  constructor
  · intro ep ep' s s' h
    simp only [epWrite] at h
    split at h
    · simp at h
    · split at h
      · simp at h
      · split at h
        · simp at h
        · split at h
          · simp at h
          · simp only [Prod.mk.injEq] at h
            rw [← h.1]
  · intro v v' s s' h
    simp only [vioWrite] at h
    split at h
    · simp at h
    · split at h
      · simp at h
      · split at h
        · simp at h
        · split at h
          · simp at h
          · simp only [Prod.mk.injEq] at h
            rw [← h.1]

/-- Witness for C2: on an unbounded sink the sample `ErrorPlot` and `Violin`
writes return without raising, and both leave the composite exactly as it
was. -/
theorem C2_witness :
    (epWrite epSample { budget := Option.none, out := "" }).1 = epSample ∧
    (vioWrite vioSample { budget := Option.none, out := "" }).1 = vioSample := by
  constructor
  · have hd : (epWrite epSample { budget := Option.none, out := "" }).2.2 =
        Option.none := by decide
    exact C2_restore_on_success.1 epSample _ _ _ (by rw [← hd])
  · have hd : (vioWrite vioSample { budget := Option.none, out := "" }).2.2 =
        Option.none := by decide
    exact C2_restore_on_success.2 vioSample _ _ _ (by rw [← hd])

/-- Claim C4: coercion is total, including on the empty tuple, and a tuple is
wrapped as a bracketed literal exactly when it has 2 or more elements with a
numeric head. Refuted twice: `as_tikz_value` evaluates `value[0]` on every
tuple, so the empty tuple raises `IndexError` (coercion is not total), and
the numeric-head test alone decides wrapping, so the 1-element tuple `(5,)`
is also wrapped as a bracketed literal. -/
theorem C4_counterexample :
    as_tikz_value (.tup []) = .error .indexError ∧
    as_tikz_value (.tup [.num 5]) =
      .ok (.encap (.value (.tup [.num 5]))) :=
  ⟨rfl, rfl⟩

/-- Claim C4 (amended): coercing the empty tuple raises `IndexError`; on
every host value free of empty tuples the coercion succeeds with exactly one
typed value; and a non-empty tuple is wrapped as a bracketed literal iff its
first element is numeric, regardless of its length. -/
theorem C4_coercion_totality :
    as_tikz_value (.tup []) = .error .indexError ∧
    (∀ v : PyVal, noEmptyTup v = true → (as_tikz_value v).isOk = true) ∧
    (∀ (x : PyVal) (xs : List PyVal),
      as_tikz_value (.tup (x :: xs)) =
          .ok (.encap (.value (.tup (x :: xs)))) ↔ isNumber x = true) := by
  refine ⟨rfl, as_tikz_value_total, fun x xs => ⟨fun h => ?_, fun h => ?_⟩⟩
  · by_contra hn
    simp only [as_tikz_value] at h
    cases xs with
    | nil =>
      rw [show atvTuple [x] =
          (match vlAdd [] x with
            | .ok d1 => .ok (.vlist d1)
            | .error e => .error e) by simp [atvTuple, hn]] at h
      cases ha : vlAdd [] x with
      | error e => rw [ha] at h; simp at h
      | ok d1 => rw [ha] at h; simp at h
    | cons b xs2 =>
      cases xs2 with
      | nil =>
        rw [show atvTuple [x, b] =
            Except.map (fun w => PyVal.vlist (odSet [] x w))
              (as_tikz_value b) by simp [atvTuple, hn]] at h
        cases ha : as_tikz_value b with
        | error e => rw [ha] at h; simp [Except.map] at h
        | ok w => rw [ha] at h; simp [Except.map] at h
      | cons c rest =>
        rw [show atvTuple (x :: b :: c :: rest) =
            (match vlAdd [] x with
              | .ok d1 =>
                match vlAdd d1 b with
                | .ok d2 =>
                  match vlAdd d2 c with
                  | .ok d3 => Except.map PyVal.vlist (vlAddSeq d3 rest)
                  | .error e => .error e
                | .error e => .error e
              | .error e => .error e) by simp [atvTuple, hn]] at h
        split at h
        · split at h
          · split at h
            · cases h4 : vlAddSeq _ rest with
              | error e => rw [h4] at h; simp [Except.map] at h
              | ok d4 => rw [h4] at h; simp [Except.map] at h
            · simp at h
          · simp at h
        · simp at h
  · have hm : mkEncap (.tup (x :: xs)) = .encap (.value (.tup (x :: xs))) := rfl
    cases xs with
    | nil => simp [as_tikz_value, atvTuple, h, hm]
    | cons b xs2 =>
      cases xs2 with
      | nil => simp [as_tikz_value, atvTuple, h, hm]
      | cons c rest => simp [as_tikz_value, atvTuple, h, hm]

/-- Witness for C4: the empty-tuple-free value `[1]` coerces successfully,
and the pair `(0, 0)` is wrapped as a bracketed literal since its head is
numeric. -/
theorem C4_witness :
    (as_tikz_value (.list [.num 1])).isOk = true ∧
    as_tikz_value (.tup [.num 0, .num 0]) =
      .ok (.encap (.value (.tup [.num 0, .num 0]))) :=
  ⟨C4_coercion_totality.2.1 (.list [.num 1]) (by decide),
   (C4_coercion_totality.2.2 (.num 0) [.num 0]).mpr (by decide)⟩

/-- Claim C5: final key order is invariant under re-ordering `add` calls that
share no key. Refuted: key order is first-insertion order, so adding the
key-disjoint mappings `\x7ba: 1\x7d` and `\x7bb: 2\x7d` in the two orders
produces the key orders `[a, b]` and `[b, a]`, which differ. -/
theorem C5_counterexample :
    keysDisjoint [(.str "a", .num 1)] [(.str "b", .num 2)] = true ∧
    vlAddSeq [] [.dict [(.str "a", .num 1)], .dict [(.str "b", .num 2)]] =
      .ok [(.str "a", .value (.num 1)), (.str "b", .value (.num 2))] ∧
    vlAddSeq [] [.dict [(.str "b", .num 2)], .dict [(.str "a", .num 1)]] =
      .ok [(.str "b", .value (.num 2)), (.str "a", .value (.num 1))] ∧
    odKeys [(.str "a", .value (.num 1)), (.str "b", .value (.num 2))] ≠
      odKeys [(.str "b", .value (.num 2)), (.str "a", .value (.num 1))] :=
  ⟨rfl, rfl, rfl, by decide⟩

/-- Claim C5 (amended): re-ordering `add` calls of key-disjoint mappings
leaves the key-to-value mapping of the result invariant (though the key
order follows first insertion, so it is permuted accordingly); re-inserting
an existing key keeps every key at its first-seen position and stores the
most recent value, coerced; and
`add(\x7ba: 1\x7d); add(\x7bb: 2\x7d); add(\x7ba: 3\x7d)` serializes as
`a=3, b=2`. -/
theorem C5_merge_order :
    (∀ (d : Entries) (es1 es2 : List (PyVal × PyVal)) (m1 r1 m2 r2 : Entries),
      keysDisjoint es1 es2 = true →
      vlAdd d (.dict es1) = .ok m1 → vlAdd m1 (.dict es2) = .ok r1 →
      vlAdd d (.dict es2) = .ok m2 → vlAdd m2 (.dict es1) = .ok r2 →
      ∀ k, odLookup r1 k = odLookup r2 k) ∧
    (∀ (d : Entries) (k v : PyVal) (r : Entries),
      odHasKey d k = true → setItemT d k v = .ok r →
      odKeys r = odKeys d ∧
        ∃ w, as_tikz_value v = .ok w ∧ odLookup r k = some w) ∧
    (vlAddSeq [] [.dict [(.str "a", .num 1)], .dict [(.str "b", .num 2)],
        .dict [(.str "a", .num 3)]] =
      .ok [(.str "a", .value (.num 3)), (.str "b", .value (.num 2))] ∧
    olistWrite [(.str "a", .value (.num 3)), (.str "b", .value (.num 2))] =
      "[a=3, b=2]") := by
  refine ⟨?_, ?_, rfl, rfl⟩
  · intro d es1 es2 m1 r1 m2 r2 hdisj h1 h2 h3 h4 k
    have L1 := setEntriesT_lookup es1 d m1 h1
    have L2 := setEntriesT_lookup es2 m1 r1 h2
    have L3 := setEntriesT_lookup es2 d m2 h3
    have L4 := setEntriesT_lookup es1 m2 r2 h4
    rw [L2 k, L4 k]
    cases ha1 : assocLast es1 k with
    | some v1 =>
      cases ha2 : assocLast es2 k with
      | some v2 =>
        exfalso
        have H1 := assocLast_hasKey es1 k v1 ha1
        have H2 := assocLast_hasKey es2 k v2 ha2
        simp only [List.any_eq_true, beq_iff_eq] at H1 H2
        obtain ⟨e1, he1, hk1⟩ := H1
        obtain ⟨e2, he2, hk2⟩ := H2
        simp only [keysDisjoint, List.all_eq_true] at hdisj
        have hc := hdisj e1 he1
        rw [hk1] at hc
        have ht : es2.any (fun x => x.1 == k) = true :=
          List.any_eq_true.mpr ⟨e2, he2, by simp [hk2]⟩
        rw [ht] at hc
        simp at hc
      | none =>
        dsimp only
        rw [L1 k, ha1]
    | none =>
      cases ha2 : assocLast es2 k with
      | some v2 =>
        dsimp only
        rw [L3 k, ha2]
      | none =>
        dsimp only
        rw [L1 k, L3 k, ha1, ha2]
  · intro d k v r h1 h2
    cases ha : as_tikz_value v with
    | error e => simp [setItemT, Except.map, ha] at h2
    | ok w =>
      simp only [setItemT, ha, Except.map, Except.ok.injEq] at h2
      refine ⟨?_, w, rfl, ?_⟩
      · rw [← h2]
        exact odKeys_odSet_present d k w h1
      · rw [← h2, odLookup_odSet]
        simp

/-- Witness for C5: the key-disjoint adds of the counterexample agree at the
key `b` in either order, and re-inserting the present key `a` keeps the key
list unchanged while storing the freshly coerced value. -/
theorem C5_witness :
    odLookup [(.str "a", .value (.num 1)), (.str "b", .value (.num 2))]
        (.str "b") =
      odLookup [(.str "b", .value (.num 2)), (.str "a", .value (.num 1))]
        (.str "b") ∧
    (odKeys [(.str "a", .value (.num 7))] =
        odKeys [(.str "a", .value (.num 1))] ∧
      ∃ w, as_tikz_value (.num 7) = .ok w ∧
        odLookup [(.str "a", .value (.num 7))] (.str "a") = some w) :=
  ⟨C5_merge_order.1 [] [(.str "a", .num 1)] [(.str "b", .num 2)]
     [(.str "a", .value (.num 1))]
     [(.str "a", .value (.num 1)), (.str "b", .value (.num 2))]
     [(.str "b", .value (.num 2))]
     [(.str "b", .value (.num 2)), (.str "a", .value (.num 1))]
     (by decide) rfl rfl rfl rfl (.str "b"),
   C5_merge_order.2.1 [(.str "a", .value (.num 1))] (.str "a") (.num 7)
     [(.str "a", .value (.num 7))] (by decide) rfl⟩

/-- Claim C10: `GroupPlot.write` permanently mutates the element's own
options — with no `group style` key it inserts one holding
`columns`/`rows`; with a `group style` holding none of `group size`,
`columns`, `rows` it inserts `columns` and `rows` into it; the insertion
survives the call (options before the first write differ from options
before every later write), and a second write no longer changes the
options. Confirmed. -/
theorem C10_groupplot_mutates_options :
    (∀ (g : GroupPlotS) (s : Sink),
      odHasKey g.options (.str "group style") = false →
      (gpWrite g s).1.options =
        odSet g.options (.str "group style")
          (.vlist [(.str "columns", .value (.num g.cols)),
                   (.str "rows", .value (.num g.rows))]) ∧
      (gpWrite g s).1.options ≠ g.options) ∧
    (∀ (g : GroupPlotS) (s : Sink) (ges : Entries),
      odLookup g.options (.str "group style") = some (.vlist ges) →
      odHasKey ges (.str "group size") = false →
      odHasKey ges (.str "columns") = false →
      odHasKey ges (.str "rows") = false →
      (gpWrite g s).1.options =
        odSet g.options (.str "group style")
          (.vlist (odSet (odSet ges (.str "columns") (.value (.num g.cols)))
            (.str "rows") (.value (.num g.rows)))) ∧
      (gpWrite g s).1.options ≠ g.options) ∧
    (∀ (g : GroupPlotS) (s s' : Sink),
      odHasKey g.options (.str "group style") = false →
      (gpWrite (gpWrite g s).1 s').1.options = (gpWrite g s).1.options) ∧
    (∀ (g : GroupPlotS) (s s' : Sink) (ges : Entries),
      odLookup g.options (.str "group style") = some (.vlist ges) →
      odHasKey ges (.str "group size") = false →
      odHasKey ges (.str "columns") = false →
      odHasKey ges (.str "rows") = false →
      (gpWrite (gpWrite g s).1 s').1.options = (gpWrite g s).1.options) := by
  have habsent : ∀ (g : GroupPlotS),
      odHasKey g.options (.str "group style") = false →
      gpMutate g.options g.rows g.cols =
        .ok (odSet g.options (.str "group style")
          (.vlist [(.str "columns", .value (.num g.cols)),
                   (.str "rows", .value (.num g.rows))])) := by
    intro g h
    unfold gpMutate
    rw [if_neg (by simp [h])]
    rfl
  have hpresent : ∀ (g : GroupPlotS) (ges : Entries),
      odLookup g.options (.str "group style") = some (.vlist ges) →
      odHasKey ges (.str "group size") = false →
      odHasKey ges (.str "columns") = false →
      odHasKey ges (.str "rows") = false →
      gpMutate g.options g.rows g.cols =
        .ok (odSet g.options (.str "group style")
          (.vlist (odSet (odSet ges (.str "columns") (.value (.num g.cols)))
            (.str "rows") (.value (.num g.rows))))) := by
    intro g ges hlk h1 h2 h3
    have hhk : odHasKey g.options (.str "group style") = true := by
      rw [odHasKey_eq_isSome_odLookup, hlk]; rfl
    unfold gpMutate
    rw [if_pos (by simp [hhk]), hlk]
    dsimp only
    rw [if_neg (by simp [h1, h2, h3])]
    rfl
  refine ⟨fun g s h => ?_, fun g s ges hlk h1 h2 h3 => ?_,
    fun g s s' h => ?_, fun g s s' ges hlk h1 h2 h3 => ?_⟩
  · have hopt : (gpWrite g s).1.options =
        odSet g.options (.str "group style")
          (.vlist [(.str "columns", .value (.num g.cols)),
                   (.str "rows", .value (.num g.rows))]) := by
      simp only [gpWrite, habsent g h]
    refine ⟨hopt, fun hc => ?_⟩
    rw [hopt] at hc
    have hl1 : odLookup (odSet g.options (.str "group style")
        (.vlist [(.str "columns", .value (.num g.cols)),
                 (.str "rows", .value (.num g.rows))])) (.str "group style") =
        some (.vlist [(.str "columns", .value (.num g.cols)),
                      (.str "rows", .value (.num g.rows))]) := by
      rw [odLookup_odSet]; simp
    rw [hc, odLookup_none_of_hasKey_false g.options _ h] at hl1
    exact Option.noConfusion hl1
  · have hopt : (gpWrite g s).1.options =
        odSet g.options (.str "group style")
          (.vlist (odSet (odSet ges (.str "columns") (.value (.num g.cols)))
            (.str "rows") (.value (.num g.rows)))) := by
      simp only [gpWrite, hpresent g ges hlk h1 h2 h3]
    refine ⟨hopt, fun hc => ?_⟩
    rw [hopt] at hc
    have hl1 : odLookup (odSet g.options (.str "group style")
        (.vlist (odSet (odSet ges (.str "columns") (.value (.num g.cols)))
          (.str "rows") (.value (.num g.rows))))) (.str "group style") =
        some (.vlist (odSet (odSet ges (.str "columns") (.value (.num g.cols)))
          (.str "rows") (.value (.num g.rows)))) := by
      rw [odLookup_odSet]; simp
    rw [hc, hlk] at hl1
    have hges : odSet (odSet ges (.str "columns") (.value (.num g.cols)))
        (.str "rows") (.value (.num g.rows)) = ges := by
      have := Option.some.inj hl1
      exact (PyVal.vlist.inj this).symm
    have hcol : odLookup ges (.str "columns") =
        some (.value (.num g.cols)) := by
      rw [← hges, odLookup_odSet, if_neg (by decide), odLookup_odSet,
        if_pos rfl]
    rw [odLookup_none_of_hasKey_false ges _ h2] at hcol
    exact Option.noConfusion hcol
  · have hg1 : (gpWrite g s).1 =
        { g with options := (odSet g.options (.str "group style")
          (.vlist [(.str "columns", .value (.num g.cols)),
                   (.str "rows", .value (.num g.rows))])) } := by
      simp only [gpWrite, habsent g h]
    rw [hg1]
    have hm2 : gpMutate (odSet g.options (.str "group style")
        (.vlist [(.str "columns", .value (.num g.cols)),
                 (.str "rows", .value (.num g.rows))])) g.rows g.cols =
        .ok (odSet g.options (.str "group style")
          (.vlist [(.str "columns", .value (.num g.cols)),
                   (.str "rows", .value (.num g.rows))])) := by
      have hl2 : odLookup (odSet g.options (.str "group style")
          (.vlist [(.str "columns", .value (.num g.cols)),
                   (.str "rows", .value (.num g.rows))])) (.str "group style") =
          some (.vlist [(.str "columns", .value (.num g.cols)),
                        (.str "rows", .value (.num g.rows))]) := by
        rw [odLookup_odSet]; simp
      unfold gpMutate
      rw [if_pos (by rw [odHasKey_eq_isSome_odLookup, hl2]; rfl), hl2]
      dsimp only
      rw [if_pos (by rfl)]
    simp only [gpWrite, hm2]
  · have hopt : (gpWrite g s).1 =
        { g with options := (odSet g.options (.str "group style")
          (.vlist (odSet (odSet ges (.str "columns") (.value (.num g.cols)))
            (.str "rows") (.value (.num g.rows))))) } := by
      simp only [gpWrite, hpresent g ges hlk h1 h2 h3]
    rw [hopt]
    have hcol : odLookup (odSet (odSet ges (.str "columns")
        (.value (.num g.cols))) (.str "rows") (.value (.num g.rows)))
        (.str "columns") = some (.value (.num g.cols)) := by
      rw [odLookup_odSet, if_neg (by decide), odLookup_odSet, if_pos rfl]
    have hl2 : odLookup (odSet g.options (.str "group style")
        (.vlist (odSet (odSet ges (.str "columns") (.value (.num g.cols)))
          (.str "rows") (.value (.num g.rows))))) (.str "group style") =
        some (.vlist (odSet (odSet ges (.str "columns") (.value (.num g.cols)))
          (.str "rows") (.value (.num g.rows)))) := by
      rw [odLookup_odSet]; simp
    have hm2 : gpMutate (odSet g.options (.str "group style")
        (.vlist (odSet (odSet ges (.str "columns") (.value (.num g.cols)))
          (.str "rows") (.value (.num g.rows))))) g.rows g.cols =
        .ok (odSet g.options (.str "group style")
          (.vlist (odSet (odSet ges (.str "columns") (.value (.num g.cols)))
            (.str "rows") (.value (.num g.rows))))) := by
      unfold gpMutate
      rw [if_pos (by rw [odHasKey_eq_isSome_odLookup, hl2]; rfl), hl2]
      dsimp only
      rw [if_pos (by
        rw [show odHasKey (odSet (odSet ges (.str "columns")
            (.value (.num g.cols))) (.str "rows") (.value (.num g.rows)))
            (.str "columns") = true by
          rw [odHasKey_eq_isSome_odLookup, hcol]; rfl]
        simp)]
    simp only [gpWrite, hm2]

/-- Witness for C10: a default `GroupPlot()` (no `group style`) and one whose
caller stored `group style = \x7bxticklabels at: all\x7d` both leave `write`
with options differing from the ones they held before. -/
theorem C10_witness :
    (gpWrite gpSample { budget := Option.none, out := "" }).1.options ≠
      gpSample.options ∧
    (gpWrite gpSampleB { budget := Option.none, out := "" }).1.options ≠
      gpSampleB.options :=
  ⟨(C10_groupplot_mutates_options.1 gpSample _ rfl).2,
   (C10_groupplot_mutates_options.2.1 gpSampleB _
     [(.str "xticklabels at", .value (.str "all"))] rfl rfl rfl rfl).2⟩
